import Mathlib

/-!
Verification of the SafaDemo smartphone-store simulation (`src/Lab_Agent.py`).

The Python code is shallowly embedded over exact rationals:

* `select_from_dist` walks an ordered association list of `(item, probability)`
  pairs with an explicit uniform draw `r`; falling off the end (the
  `RuntimeError` / `InvalidDistribution` case) is modelled as `none`.
* `SmartphoneEnvironment` state is the record `EnvState`; `do_action` takes
  the uniform draw for the daily-sales sample and the Gaussian noise value as
  explicit arguments, returning `none` when the sampler raises.
* `SmartphoneAgent` state is the record `AgentState`; `select_action` is a
  pure function returning the updated state together with the action.
* The `Simulation` driver threads the percept between agent and environment.

Python dictionaries `{"buy": n}` are modelled by `Action` whose field is an
`Option ℚ`: `none` models a dictionary lacking the `"buy"` key, matching
`action.get("buy", 0)`.
-/

namespace LabAgent

/-- One observable snapshot `{"price": ..., "stock": ...}`. -/
structure Percept where
  price : ℚ
  stock : ℚ
deriving DecidableEq, Repr

/-- The agent's action dictionary; `buy = none` models a dict without the
`"buy"` key, read back through `action.get("buy", 0)`. -/
structure Action where
  buy : Option ℚ
deriving DecidableEq, Repr

/-- `select_from_dist(item_prob_dist)` with the call to `random.random()`
made explicit: walk the entries in insertion order, return the item whose
cumulative band contains `r`, and report `none` (the `RuntimeError`) when the
draw exceeds the cumulative mass. -/
def select_from_dist {α : Type} : List (α × ℚ) → ℚ → Option α
  | [], _ => none
  | (item, prob) :: rest, r =>
      if r < prob then some item else select_from_dist rest (r - prob)

/-- The state of `SmartphoneEnvironment`. -/
structure EnvState where
  time : ℕ
  stock : ℚ
  price : ℚ
  stock_history : List ℚ
  price_history : List ℚ
deriving DecidableEq, Repr

/-- `SmartphoneEnvironment.price_delta`. -/
def price_delta : List ℚ := [10, -20, 5, -15, 0, 25, -30, 20, -5, 0]

/-- The daily-sales distribution `{3: 0.2, 5: 0.3, 7: 0.3, 10: 0.2}` in
insertion order. -/
def sales_dist : List (ℚ × ℚ) := [(3, 0.2), (5, 0.3), (7, 0.3), (10, 0.2)]

/-- `SmartphoneEnvironment.__init__`. -/
def env_init : EnvState :=
  { time := 0, stock := 50, price := 600
    stock_history := [50], price_history := [600] }

/-- `SmartphoneEnvironment.initial_percept`. -/
def initial_percept (s : EnvState) : Percept :=
  { price := s.price, stock := s.stock }

/-- `SmartphoneEnvironment.do_action`, with the uniform draw `r` feeding the
daily-sales sample and the Gaussian noise value `g` made explicit.  A raised
`RuntimeError` from the sampler is `none`. -/
def do_action (s : EnvState) (a : Action) (r g : ℚ) : Option (EnvState × Percept) :=
  match select_from_dist sales_dist r with
  | none => none
  | some daily_sales =>
      let bought := a.buy.getD 0
      let stock1 := max 0 (s.stock + bought - daily_sales)
      let time1 := s.time + 1
      let price1 := s.price + price_delta.getD (time1 % price_delta.length) 0 + g
      let s1 : EnvState :=
        { time := time1, stock := stock1, price := price1
          stock_history := s.stock_history ++ [stock1]
          price_history := s.price_history ++ [price1] }
      some (s1, { price := price1, stock := stock1 })

/-- One environment step's inputs: the action and the two random draws. -/
structure StepIn where
  action : Action
  r : ℚ
  g : ℚ
deriving DecidableEq, Repr

/-- Run a sequence of `do_action` calls; `none` as soon as one raises. -/
def env_steps (s : EnvState) : List StepIn → Option EnvState
  | [] => some s
  | x :: rest =>
      match do_action s x.action x.r x.g with
      | none => none
      | some (s1, _) => env_steps s1 rest

/-- The state of `SmartphoneAgent`. -/
structure AgentState where
  average_price : ℚ
  buy_history : List ℚ
  total_spent : ℚ
deriving DecidableEq, Repr

/-- `SmartphoneAgent.__init__`. -/
def agent_init : AgentState :=
  { average_price := 600, buy_history := [], total_spent := 0 }

/-- `SmartphoneAgent.select_action`: returns the updated agent state together
with the action `{"buy": tobuy}`. -/
def select_action (s : AgentState) (p : Percept) : AgentState × Action :=
  let current_price := p.price
  let current_stock := p.stock
  let avg := s.average_price + (current_price - s.average_price) * 0.1
  let tobuy : ℚ :=
    if current_price < 0.8 * avg ∧ current_stock > 10 then 15
    else if current_stock < 10 then 10
    else 0
  ({ average_price := avg
     buy_history := s.buy_history ++ [tobuy]
     total_spent := s.total_spent + tobuy * current_price },
   { buy := some tobuy })

/-- The state of `Simulation`: agent, environment, current percept. -/
structure SimState where
  agent : AgentState
  env : EnvState
  percept : Percept
deriving DecidableEq, Repr

/-- `Simulation.__init__`. -/
def sim_init (a : AgentState) (e : EnvState) : SimState :=
  { agent := a, env := e, percept := initial_percept e }

/-- `Simulation.run(steps)`: the random draws of step `k` come from `rand k`.
`none` if the sampler ever raises. -/
def sim_run (sim : SimState) : (steps : ℕ) → (rand : ℕ → ℚ × ℚ) → Option SimState
  | 0, _ => some sim
  | n + 1, rand =>
      let (a1, act) := select_action sim.agent sim.percept
      match do_action sim.env act (rand 0).1 (rand 0).2 with
      | none => none
      | some (e1, p1) =>
          sim_run { agent := a1, env := e1, percept := p1 } n (fun k => rand (k + 1))

/-! ### Helper lemmas -/

/-- If the draw lies strictly below the remaining cumulative mass, the walk
returns some item. -/
theorem select_from_dist_isSome {α : Type} :
    ∀ (l : List (α × ℚ)) (r : ℚ), 0 ≤ r → r < (l.map Prod.snd).sum →
      ∃ it, select_from_dist l r = some it
  | [], r, h0, h1 => by
      simp only [List.map_nil, List.sum_nil] at h1
      exact absurd (lt_of_le_of_lt h0 h1) (lt_irrefl 0)
  | (a, p) :: rest, r, h0, h1 => by
      simp only [List.map_cons, List.sum_cons] at h1
      by_cases hrp : r < p
      · exact ⟨a, by simp [select_from_dist, hrp]⟩
      · have h0r : 0 ≤ r - p := by
          have := not_lt.mp hrp
          linarith
        have h1r : r - p < (rest.map Prod.snd).sum := by linarith
        obtain ⟨it, hit⟩ := select_from_dist_isSome rest (r - p) h0r h1r
        exact ⟨it, by simp [select_from_dist, hrp, hit]⟩

/-- If the draw is at least the total mass of a non-negative list, the walk
falls off the end. -/
theorem select_from_dist_none_of_sum_le {α : Type} :
    ∀ (l : List (α × ℚ)) (r : ℚ), (∀ x ∈ l, 0 ≤ x.2) →
      (l.map Prod.snd).sum ≤ r → select_from_dist l r = none
  | [], _, _, _ => rfl
  | (a, p) :: rest, r, hnn, hle => by
      simp only [List.map_cons, List.sum_cons] at hle
      have hrest : 0 ≤ (rest.map Prod.snd).sum := by
        refine List.sum_nonneg ?_
        intro q hq
        obtain ⟨x, hx, hxq⟩ := List.mem_map.mp hq
        exact hxq ▸ hnn x (List.mem_cons_of_mem _ hx)
      have hnp : ¬ r < p := not_lt.mpr (by linarith)
      have htail := select_from_dist_none_of_sum_le rest (r - p)
        (fun x hx => hnn x (List.mem_cons_of_mem _ hx)) (by linarith)
      simp [select_from_dist, hnp, htail]

/-- A successful `do_action` clamps stock at zero. -/
theorem do_action_stock_nonneg (s : EnvState) (a : Action) (r g : ℚ)
    (s' : EnvState) (p : Percept) (h : do_action s a r g = some (s', p)) :
    0 ≤ s'.stock := by
  unfold do_action at h
  cases hsel : select_from_dist sales_dist r with
  | none => rw [hsel] at h; exact absurd h (by simp)
  | some d =>
      rw [hsel] at h
      simp only [Option.some.injEq, Prod.mk.injEq] at h
      have hs : s' = { time := s.time + 1, stock := max 0 (s.stock + a.buy.getD 0 - d)
                       price := s.price + price_delta.getD ((s.time + 1) % price_delta.length) 0 + g
                       stock_history := s.stock_history ++ [max 0 (s.stock + a.buy.getD 0 - d)]
                       price_history := s.price_history ++
                         [s.price + price_delta.getD ((s.time + 1) % price_delta.length) 0 + g] } :=
        h.1.symm
      rw [hs]
      exact le_max_left 0 _

/-- Stock non-negativity is preserved along any run of `do_action` calls. -/
theorem env_steps_stock_nonneg :
    ∀ (tr : List StepIn) (s s' : EnvState), 0 ≤ s.stock →
      env_steps s tr = some s' → 0 ≤ s'.stock
  | [], s, s', h0, h => by
      simp only [env_steps, Option.some.injEq] at h
      exact h ▸ h0
  | x :: rest, s, s', h0, h => by
      unfold env_steps at h
      cases hda : do_action s x.action x.r x.g with
      | none => rw [hda] at h; exact absurd h (by simp)
      | some sp =>
          obtain ⟨s1, p1⟩ := sp
          rw [hda] at h
          exact env_steps_stock_nonneg rest s1 s'
            (do_action_stock_nonneg s x.action x.r x.g s1 p1 hda) h

/-- A successful `do_action` advances time by one and appends exactly one
entry to each history. -/
theorem do_action_lengths (s : EnvState) (a : Action) (r g : ℚ)
    (s' : EnvState) (p : Percept) (h : do_action s a r g = some (s', p)) :
    s'.time = s.time + 1 ∧
      s'.price_history.length = s.price_history.length + 1 ∧
      s'.stock_history.length = s.stock_history.length + 1 := by
  unfold do_action at h
  cases hsel : select_from_dist sales_dist r with
  | none => rw [hsel] at h; exact absurd h (by simp)
  | some d =>
      rw [hsel] at h
      simp only [Option.some.injEq, Prod.mk.injEq] at h
      rw [← h.1]
      refine ⟨rfl, ?_, ?_⟩ <;> simp

/-- The history-length invariant is preserved along any run. -/
theorem env_steps_lengths :
    ∀ (tr : List StepIn) (s s' : EnvState),
      s.price_history.length = s.time + 1 → s.stock_history.length = s.time + 1 →
      env_steps s tr = some s' →
      s'.price_history.length = s'.time + 1 ∧ s'.stock_history.length = s'.time + 1
  | [], s, s', hp, hs, h => by
      simp only [env_steps, Option.some.injEq] at h
      exact h ▸ ⟨hp, hs⟩
  | x :: rest, s, s', hp, hs, h => by
      unfold env_steps at h
      cases hda : do_action s x.action x.r x.g with
      | none => rw [hda] at h; exact absurd h (by simp)
      | some sp =>
          obtain ⟨s1, p1⟩ := sp
          rw [hda] at h
          obtain ⟨ht, hpl, hsl⟩ := do_action_lengths s x.action x.r x.g s1 p1 hda
          exact env_steps_lengths rest s1 s'
            (by rw [hpl, hp, ht]) (by rw [hsl, hs, ht]) h

/-- A concrete one-step trace used by witnesses: order 5 units, draw `r = 1/10`
(daily sales 3), zero noise. -/
def tr_one : List StepIn := [⟨⟨some 5⟩, 1/10, 0⟩]

/-- The environment state after the single step of `tr_one`. -/
def s_after_one : EnvState := ⟨1, 52, 580, [50, 52], [600, 580]⟩

/-! ### Claims -/

/-- C1: for every sequence of `do_action` calls in which every action has
`buy ≥ 0`, the environment's `stock` field is `≥ 0` after each call (the
stock update clamps at zero). -/
theorem stock_nonneg_after_each_call (tr : List StepIn) (k : ℕ) (s' : EnvState)
    (_hbuy : ∀ x ∈ tr, 0 ≤ x.action.buy.getD 0)
    (h : env_steps env_init (tr.take k) = some s') : 0 ≤ s'.stock :=
  env_steps_stock_nonneg (tr.take k) env_init s' (by norm_num [env_init]) h

/-- Witness for C1 at the one-step trace `tr_one`. -/
theorem stock_nonneg_after_each_call_witness :
    (∀ x ∈ tr_one, 0 ≤ x.action.buy.getD 0) ∧
      env_steps env_init (tr_one.take 1) = some s_after_one ∧
      0 ≤ s_after_one.stock :=
  ⟨by norm_num [tr_one],
   by norm_num [env_steps, do_action, select_from_dist, sales_dist, tr_one, env_init,
     s_after_one, price_delta],
   stock_nonneg_after_each_call tr_one 1 s_after_one (by norm_num [tr_one])
     (by norm_num [env_steps, do_action, select_from_dist, sales_dist, tr_one, env_init,
       s_after_one, price_delta])⟩

/-- C2: after any sequence of `do_action` calls on a freshly constructed
environment, `len(price_history) = len(stock_history) = time + 1`; at
construction (`k = 0`) time is `0` and each history holds one element. -/
theorem history_lengths_eq_time_succ (tr : List StepIn) (k : ℕ) (s' : EnvState)
    (h : env_steps env_init (tr.take k) = some s') :
    s'.price_history.length = s'.time + 1 ∧ s'.stock_history.length = s'.time + 1 :=
  env_steps_lengths (tr.take k) env_init s' (by norm_num [env_init]) (by norm_num [env_init]) h

/-- Witness for C2 at the one-step trace `tr_one`. -/
theorem history_lengths_eq_time_succ_witness :
    env_steps env_init (tr_one.take 1) = some s_after_one ∧
      s_after_one.price_history.length = s_after_one.time + 1 ∧
      s_after_one.stock_history.length = s_after_one.time + 1 :=
  ⟨by norm_num [env_steps, do_action, select_from_dist, sales_dist, tr_one, env_init,
     s_after_one, price_delta],
   history_lengths_eq_time_succ tr_one 1 s_after_one
     (by norm_num [env_steps, do_action, select_from_dist, sales_dist, tr_one, env_init,
       s_after_one, price_delta])⟩

/-- C3: for every distribution with non-negative probabilities summing to `1`
and every draw `r ∈ [0, 1)`, `select_from_dist` returns some item and never
falls through to the `InvalidDistribution` error. -/
theorem sample_total_on_valid_dist {α : Type} (l : List (α × ℚ)) (r : ℚ)
    (_hnn : ∀ x ∈ l, 0 ≤ x.2) (hsum : (l.map Prod.snd).sum = 1)
    (h0 : 0 ≤ r) (h1 : r < 1) : ∃ it, select_from_dist l r = some it :=
  select_from_dist_isSome l r h0 (hsum ▸ h1)

/-- Witness for C3 at the daily-sales distribution with draw `1/2`. -/
theorem sample_total_on_valid_dist_witness :
    (∀ x ∈ sales_dist, 0 ≤ x.2) ∧ (sales_dist.map Prod.snd).sum = 1 ∧
      ∃ it, select_from_dist sales_dist (1/2) = some it :=
  ⟨by norm_num [sales_dist], by norm_num [sales_dist],
   sample_total_on_valid_dist sales_dist (1/2) (by norm_num [sales_dist])
     (by norm_num [sales_dist]) (by norm_num) (by norm_num)⟩

/-- A malformed distribution whose first probability already exceeds `1`: its
probabilities sum to `1/2 < 1`, yet every draw in `[0, 1)` lands in the first
band, so the sampler never raises. -/
def bad_dist : List (ℚ × ℚ) := [(3, 3/2), (5, -1)]

/-- C4 counterexample: `bad_dist` sums to `1/2 < 1`, but no draw `r ∈ [0, 1)`
makes `select_from_dist` fall through — the claim without a non-negativity
requirement on the probabilities is false. -/
theorem sample_fails_on_deficient_dist_counterexample :
    (bad_dist.map Prod.snd).sum < 1 ∧
      ¬ ∃ r : ℚ, 0 ≤ r ∧ r < 1 ∧ select_from_dist bad_dist r = none := by
  constructor
  · norm_num [bad_dist]
  · rintro ⟨r, h0, h1, hn⟩
    have hr : r < (3:ℚ)/2 := by linarith
    simp [bad_dist, select_from_dist, hr] at hn

/-- C4 (amended): for every distribution with non-negative probabilities
summing to strictly less than `1`, some draw `r ∈ [0, 1)` makes
`select_from_dist` fall through to the `InvalidDistribution` error. -/
theorem sample_fails_on_deficient_dist {α : Type} (l : List (α × ℚ))
    (hnn : ∀ x ∈ l, 0 ≤ x.2) (hsum : (l.map Prod.snd).sum < 1) :
    ∃ r : ℚ, 0 ≤ r ∧ r < 1 ∧ select_from_dist l r = none := by
  refine ⟨(l.map Prod.snd).sum, ?_, hsum, ?_⟩
  · refine List.sum_nonneg ?_
    intro q hq
    obtain ⟨x, hx, hxq⟩ := List.mem_map.mp hq
    exact hxq ▸ hnn x hx
  · exact select_from_dist_none_of_sum_le l _ hnn le_rfl

/-- Witness for the amended C4 at the half-weight singleton distribution. -/
theorem sample_fails_on_deficient_dist_witness :
    (∀ x ∈ [((3:ℚ), (1:ℚ)/2)], 0 ≤ x.2) ∧
      (([((3:ℚ), (1:ℚ)/2)].map Prod.snd).sum < 1) ∧
      ∃ r : ℚ, 0 ≤ r ∧ r < 1 ∧ select_from_dist [((3:ℚ), (1:ℚ)/2)] r = none :=
  ⟨by norm_num, by norm_num,
   sample_fails_on_deficient_dist [((3:ℚ), (1:ℚ)/2)] (by norm_num) (by norm_num)⟩

/-- C5 counterexample: from the initial agent state, the percept
`{price: -100, stock: 5}` (negative price, low stock) triggers the
replenishment branch (`tobuy = 10`), and `total_spent` drops from `0` to
`-1000` — strictly decreasing, refuting unconditional monotonicity. -/
theorem total_spent_monotone_counterexample :
    (select_action ⟨600, [], 0⟩ ⟨-100, 5⟩).1.total_spent
      < (AgentState.mk 600 [] 0).total_spent := by
  norm_num [select_action]

/-- C5 (amended): `total_spent` is non-decreasing across a `select_action`
call whenever the observed price is non-negative (for negative prices it can
strictly decrease, as the counterexample shows). -/
theorem total_spent_monotone_of_nonneg_price (s : AgentState) (p : Percept)
    (hp : 0 ≤ p.price) : s.total_spent ≤ (select_action s p).1.total_spent := by
  have hb : (0:ℚ) ≤
      (if p.price < 0.8 * (s.average_price + (p.price - s.average_price) * 0.1)
            ∧ p.stock > 10 then (15:ℚ)
       else if p.stock < 10 then 10 else 0) := by
    split_ifs <;> norm_num
  simp only [select_action]
  exact le_add_of_nonneg_right (mul_nonneg hb hp)

/-- Witness for the amended C5 at the initial agent and percept
`{price: 500, stock: 10}`. -/
theorem total_spent_monotone_of_nonneg_price_witness :
    (0:ℚ) ≤ (Percept.mk 500 10).price ∧
      agent_init.total_spent ≤ (select_action agent_init ⟨500, 10⟩).1.total_spent :=
  ⟨by norm_num, total_spent_monotone_of_nonneg_price agent_init ⟨500, 10⟩ (by norm_num)⟩

/-- C6: with the Gaussian noise fixed to `0`, any successful `do_action` call
on the fresh environment leaves `price = 600 + price_delta[1 % 10] = 580`
(the delta is indexed by the incremented time). -/
theorem price_after_one_step_fresh_env (a : Action) (r : ℚ)
    (s' : EnvState) (p : Percept) (h : do_action env_init a r 0 = some (s', p)) :
    s'.price = 580 := by
  unfold do_action at h
  cases hsel : select_from_dist sales_dist r with
  | none => rw [hsel] at h; exact absurd h (by simp)
  | some d =>
      rw [hsel] at h
      simp only [Option.some.injEq, Prod.mk.injEq] at h
      rw [← h.1]
      norm_num [env_init, price_delta]

/-- Witness for C6: draw `r = 0` (daily sales 3) with a zero-unit order. -/
theorem price_after_one_step_fresh_env_witness :
    do_action env_init ⟨some 0⟩ 0 0 = some (⟨1, 47, 580, [50, 47], [600, 580]⟩, ⟨580, 47⟩) ∧
      (EnvState.mk 1 47 580 [50, 47] [600, 580]).price = 580 :=
  ⟨by norm_num [do_action, select_from_dist, sales_dist, env_init, price_delta],
   price_after_one_step_fresh_env ⟨some 0⟩ 0 ⟨1, 47, 580, [50, 47], [600, 580]⟩ ⟨580, 47⟩
     (by norm_num [do_action, select_from_dist, sales_dist, env_init, price_delta])⟩

/-- C7: with `average_price = 600`, the percept `{price: 500, stock: 10}`
updates the average to `590` and returns `buy = 0`: stock exactly `10`
satisfies neither `stock > 10` nor `stock < 10`. -/
theorem agent_boundary_stock_ten (bh : List ℚ) (ts : ℚ) :
    (select_action ⟨600, bh, ts⟩ ⟨500, 10⟩).1.average_price = 590 ∧
      (select_action ⟨600, bh, ts⟩ ⟨500, 10⟩).2.buy = some 0 := by
  constructor <;> norm_num [select_action]

/-- C8: with `average_price = 600`, the percept `{price: 400, stock: 20}`
updates the average to `580`, satisfies the discount condition
(`400 < 0.8 * 580 = 464` and `20 > 10`), and returns `buy = 15`. -/
theorem agent_discount_branch (bh : List ℚ) (ts : ℚ) :
    (select_action ⟨600, bh, ts⟩ ⟨400, 20⟩).1.average_price = 580 ∧
      (select_action ⟨600, bh, ts⟩ ⟨400, 20⟩).2.buy = some 15 := by
  constructor <;> norm_num [select_action]

/-- C9: running the driver for `0` steps performs no iterations: afterwards
`agent.buy_history = []`, `env.price_history = [600]`,
`env.stock_history = [50]`. -/
theorem sim_run_zero_steps (rand : ℕ → ℚ × ℚ) :
    ∃ s : SimState, sim_run (sim_init agent_init env_init) 0 rand = some s ∧
      s.agent.buy_history = [] ∧ s.env.price_history = [600] ∧
      s.env.stock_history = [50] :=
  ⟨sim_init agent_init env_init, rfl, rfl, rfl, rfl⟩

/-- C10: an action dictionary lacking the `"buy"` key is read as `0` by
`action.get("buy", 0)`: the call behaves exactly like `{"buy": 0}` and, for
any draw `r ∈ [0, 1)`, does not fail. -/
theorem do_action_missing_buy_key (s : EnvState) (r g : ℚ)
    (h0 : 0 ≤ r) (h1 : r < 1) :
    do_action s ⟨none⟩ r g = do_action s ⟨some 0⟩ r g ∧
      (do_action s ⟨none⟩ r g).isSome := by
  constructor
  · rfl
  · have hsum : (sales_dist.map Prod.snd).sum = 1 := by norm_num [sales_dist]
    obtain ⟨it, hit⟩ := select_from_dist_isSome sales_dist r h0 (hsum ▸ h1)
    simp [do_action, hit]

/-- Witness for C10 at the fresh environment with `r = 0`, `g = 0`. -/
theorem do_action_missing_buy_key_witness :
    (0:ℚ) ≤ 0 ∧ (0:ℚ) < 1 ∧
      (do_action env_init ⟨none⟩ 0 0 = do_action env_init ⟨some 0⟩ 0 0 ∧
        (do_action env_init ⟨none⟩ 0 0).isSome) :=
  ⟨le_refl 0, by norm_num, do_action_missing_buy_key env_init 0 0 (le_refl 0) (by norm_num)⟩

end LabAgent
